import Mathlib

/-!
Verification of the pwgen command-line generator (src/src/main.rs).

The program is embedded shallowly: randomness is modelled by explicit index
streams (`rand`'s `choose` picks an in-range index, modelled as `k % len`),
the clipboard service by a three-valued environment, and printing by a list
of printed lines. The sampling performed by a run is recorded as an explicit
event trace so that claims about what happens "before" a validation check
are observable.
-/

namespace Pwgen

/-- The five character-set names of the `CharSet` value enum (main.rs 73-80). -/
inductive CharSet
  | Lower
  | Upper
  | Digits
  | Symbol
  | RareSymbol
deriving DecidableEq, Repr

/-- LOWER_CHARS constant (main.rs 94). -/
def LOWER_CHARS : List Char := "abcdefghijklmnopqrstuvwxyz".toList

/-- UPPER_CHARS constant (main.rs 95). -/
def UPPER_CHARS : List Char := "ABCDEFGHIJKLMNOPQRSTUVWXYZ".toList

/-- DIGITS_CHARS constant (main.rs 96). -/
def DIGITS_CHARS : List Char := "0123456789".toList

/-- SPECIAL_CHARS constant (main.rs 97); the two brace characters are written
with hexadecimal escapes. -/
def SPECIAL_CHARS : List Char := "!@#$%^&*-_=+()[]\x7b\x7d<>:;,.?~".toList

/-- SPECIAL_RARE_CHARS constant (main.rs 98): slash, backslash, single quote,
double quote, pipe, backquote, space; the quote characters and the backquote
are written via their code points. -/
def SPECIAL_RARE_CHARS : List Char :=
  ['/', '\\', Char.ofNat 39, Char.ofNat 34, '|', Char.ofNat 96, ' ']

/-- The get_char_set lookup (main.rs 82-90). -/
def get_char_set : CharSet → List Char
  | CharSet.Lower => LOWER_CHARS
  | CharSet.Upper => UPPER_CHARS
  | CharSet.Digits => DIGITS_CHARS
  | CharSet.Symbol => SPECIAL_CHARS
  | CharSet.RareSymbol => SPECIAL_RARE_CHARS

/-- DEFAULT_CHAR_SETS constant (main.rs 92). -/
def DEFAULT_CHAR_SETS : List CharSet :=
  [CharSet.Lower, CharSet.Upper, CharSet.Digits, CharSet.Symbol]

/-- Parsed arguments of the password subcommand (main.rs 27-53). Lengths are
u32 values, represented as natural numbers. -/
structure PasswordArgs where
  length : Option Nat
  character_sets : Option (List CharSet)
  excluded_chars : Option (List Char)
  copy_disabled : Bool
  hide_disabled : Bool
deriving DecidableEq, Repr

/-- Parsed arguments of the username subcommand (main.rs 55-70). -/
structure UsernameArgs where
  numbers : Option Nat
  word_char : Option Char
  copy_disabled : Bool
deriving DecidableEq, Repr

/-- One random draw performed by a run, in program order: a character drawn
from the password alphabet, a word drawn from a word list, or a decimal digit
drawn for the username suffix. -/
inductive REvent
  | charDrawn (c : Char)
  | wordDrawn (w : List Char)
  | digitDrawn (d : Nat)
deriving DecidableEq, Repr

/-- Model of `IndexedRandom::choose`: `None` on an empty slice, otherwise the
element at a uniformly chosen in-range index. The random index is supplied as
an arbitrary natural number `k` and brought in range by `k % l.length`. -/
def choose {α : Type} (l : List α) (k : Nat) : Option α :=
  if l.isEmpty then none else l[k % l.length]?

/-- The candidate alphabet built by the password branch (main.rs 126-141):
the characters of the chosen sets (default DEFAULT_CHAR_SETS) concatenated in
order, then one `retain` pass per excluded character. -/
def buildAlphabet (args : PasswordArgs) : List Char :=
  let chosen := args.character_sets.getD DEFAULT_CHAR_SETS
  let all := chosen.foldl (fun acc s => acc ++ get_char_set s) []
  match args.excluded_chars with
  | some ex => ex.foldl (fun acc c => acc.filter (fun d => d != c)) all
  | none => all

/-- The sampling loop of the password branch (main.rs 157-160): draw `n`
characters starting at draw position `i`; a failed `choose` models the
`unwrap` panicking. Returns the drawn characters and the event trace. -/
def sampleChars (alphabet : List Char) (rnd : Nat → Nat) :
    Nat → Nat → Option (List Char) × List REvent
  | _, 0 => (some [], [])
  | i, Nat.succ n =>
    match choose alphabet (rnd i) with
    | none => (none, [])
    | some c =>
      let rest := sampleChars alphabet rnd (i + 1) n
      (rest.1.map (fun l => c :: l), REvent.charDrawn c :: rest.2)

/-- Outcome of the password branch. -/
inductive PwOutcome
  | emptyAlphabet
  | lengthTooLarge
  | panicked
  | ok (pw : List Char)
deriving DecidableEq, Repr

/-- Length validation (main.rs 148-155): default 16; an explicit length above
65536 is rejected. -/
def effectiveLength : Option Nat → Option Nat
  | some l => if l > 65536 then none else some l
  | none => some 16

/-- The password branch of main (main.rs 120-160): build the alphabet, reject
an empty alphabet, validate the length, then sample. -/
def passwordBranch (args : PasswordArgs) (rnd : Nat → Nat) :
    PwOutcome × List REvent :=
  let alphabet := buildAlphabet args
  if alphabet.isEmpty then (PwOutcome.emptyAlphabet, [])
  else
    match effectiveLength args.length with
    | none => (PwOutcome.lengthTooLarge, [])
    | some len =>
      let s := sampleChars alphabet rnd 0 len
      match s.1 with
      | none => (PwOutcome.panicked, s.2)
      | some pw => (PwOutcome.ok pw, s.2)

/-- Outcome of the username branch. `panicked` models the `expect` on an
empty word list (main.rs 173-174). -/
inductive UnOutcome
  | panicked
  | numbersTooLarge
  | ok (u : List Char)
deriving DecidableEq, Repr

/-- The separator string chosen from the word-char option (main.rs 176-180):
the single character, or the empty string when absent. -/
def sepOf (args : UsernameArgs) : List Char :=
  match args.word_char with
  | some c => [c]
  | none => []

/-- Digit-count validation (main.rs 184-192): default 2; an explicit count
above 65536 is rejected. -/
def effectiveNumbers : Option Nat → Option Nat
  | some n => if n > 65536 then none else some n
  | none => some 2

/-- The digits drawn by the suffix loop (main.rs 198-200): `random_range
(0..10)` at each position, modelled as an arbitrary supplied value mod 10. -/
def digitsOf (digitRnd : Nat → Nat) (n : Nat) : List Nat :=
  (List.range n).map (fun i => digitRnd i % 10)

/-- The single character appended for one drawn digit d < 10 (`to_string` of
the value, main.rs 199). -/
def digitChar (d : Nat) : Char := Char.ofNat (48 + d % 10)

/-- The username branch of main (main.rs 167-203), parametrized by the two
word lists. Modelled from the spec: the bundled word-list data files
(data/adjective.txt, data/object.txt) are not part of src/, and the spec
describes them only as immutable ordered sequences of words loaded once, so
the branch takes the two lists as parameters. Program order follows the
source: both words are drawn first, then the separator and base string are
built, then the digit count is validated, then the optional second separator
and the digit suffix are appended. -/
def usernameBranch (adjList objList : List (List Char)) (args : UsernameArgs)
    (adjIdx objIdx : Nat) (digitRnd : Nat → Nat) : UnOutcome × List REvent :=
  match choose adjList adjIdx with
  | none => (UnOutcome.panicked, [])
  | some adj =>
    match choose objList objIdx with
    | none => (UnOutcome.panicked, [REvent.wordDrawn adj])
    | some obj =>
      let sep := sepOf args
      let base := adj ++ sep ++ obj
      match effectiveNumbers args.numbers with
      | none =>
        (UnOutcome.numbersTooLarge, [REvent.wordDrawn adj, REvent.wordDrawn obj])
      | some n =>
        let base2 := if n > 0 then base ++ sep else base
        let ds := digitsOf digitRnd n
        (UnOutcome.ok (base2 ++ ds.map digitChar),
         REvent.wordDrawn adj :: REvent.wordDrawn obj :: ds.map REvent.digitDrawn)

/-- The clipboard environment a run executes in: `Clipboard::new()` fails
(`noService`), or it succeeds and `set_text` fails (`serviceFailWrite`) or
succeeds (`serviceOk`) (main.rs 207-222). -/
inductive ClipEnv
  | serviceOk
  | serviceFailWrite
  | noService
deriving DecidableEq, Repr

/-- Message printed when the alphabet is empty (main.rs 144). -/
def emptyAlphabetMsg : List Char :=
  "No characters are allowed! Try to add more character sets or exclude less characters.".toList

/-- Message printed when the password length exceeds the bound (main.rs 151). -/
def tooLongMsg : List Char :=
  "Password too long! Cannot be longer than 65536.".toList

/-- Message printed when the digit count exceeds the bound (main.rs 186). -/
def tooManyMsg : List Char :=
  "Too many numbers! Cannot be more than 65536.".toList

/-- Status line printed after a clipboard attempt (main.rs 210-221), selected
by mode and environment. -/
def clipStatus (isPw : Bool) (env : ClipEnv) : List Char :=
  match env with
  | ClipEnv.serviceOk =>
    if isPw then "Password copied to clipboard.".toList
    else "Username copied to clipboard.".toList
  | ClipEnv.serviceFailWrite => "Unable to copy to clipboard.".toList
  | ClipEnv.noService =>
    "Unable to copy to clipboard because it is not supported by OS.".toList

/-- The observable result of a whole run: the lines printed in order, whether
a clipboard write (`set_text`) was attempted, and the random draws made. -/
structure RunResult where
  printed : List (List Char)
  clipAttempted : Bool
  events : List REvent
deriving DecidableEq, Repr

/-- The clipboard block of main (main.rs 207-222): when copying is enabled it
prints one status line; `set_text` is attempted exactly when the clipboard
service exists. -/
def runClipboard (copy : Bool) (isPw : Bool) (env : ClipEnv) :
    List (List Char) × Bool :=
  if copy then
    ([clipStatus isPw env],
     match env with
     | ClipEnv.noService => false
     | _ => true)
  else ([], false)

/-- End-to-end model of main in password mode (main.rs 118-165 and 207-222):
the branch outcome decides the printed lines; on a validation error main
returns before reaching the clipboard block; on success the value is printed
only when hide_disabled is set, then the clipboard block runs when copying is
enabled. -/
def mainPassword (args : PasswordArgs) (rnd : Nat → Nat) (env : ClipEnv) :
    RunResult :=
  match passwordBranch args rnd with
  | (PwOutcome.emptyAlphabet, evs) => ⟨[emptyAlphabetMsg], false, evs⟩
  | (PwOutcome.lengthTooLarge, evs) => ⟨[tooLongMsg], false, evs⟩
  | (PwOutcome.panicked, evs) => ⟨[], false, evs⟩
  | (PwOutcome.ok pw, evs) =>
    let base := if args.hide_disabled then [pw] else []
    let c := runClipboard (!args.copy_disabled) true env
    ⟨base ++ c.1, c.2, evs⟩

/-- End-to-end model of main in username mode (main.rs 167-222): on a
validation error main returns before printing a value and before the
clipboard block; on success the username is always printed, then the
clipboard block runs when copying is enabled. -/
def mainUsername (adjList objList : List (List Char)) (args : UsernameArgs)
    (adjIdx objIdx : Nat) (digitRnd : Nat → Nat) (env : ClipEnv) : RunResult :=
  match usernameBranch adjList objList args adjIdx objIdx digitRnd with
  | (UnOutcome.panicked, evs) => ⟨[], false, evs⟩
  | (UnOutcome.numbersTooLarge, evs) => ⟨[tooManyMsg], false, evs⟩
  | (UnOutcome.ok u, evs) =>
    let c := runClipboard (!args.copy_disabled) false env
    ⟨[u] ++ c.1, c.2, evs⟩

/-- Alphabet described by the spec sentence for C4: the in-order
concatenation of the requested sets with every occurrence of every excluded
character removed, written as a single filter. -/
def specAlphabet (sets : List CharSet) (ex : List Char) : List Char :=
  (sets.foldl (fun acc s => acc ++ get_char_set s) []).filter
    (fun c => !ex.contains c)

/-! ### Helper lemmas -/

/-- On a non-empty list, `choose` returns an element of the list. -/
theorem choose_of_ne_nil {α : Type} (l : List α) (k : Nat) (h : l ≠ []) :
    ∃ a, choose l k = some a ∧ a ∈ l := by
  have hlen : 0 < l.length := List.length_pos.mpr h
  have hk : k % l.length < l.length := Nat.mod_lt _ hlen
  refine ⟨l.get ⟨k % l.length, hk⟩, ?_, List.get_mem l _ hk⟩
  simp [choose, List.isEmpty_iff, h, List.getElem?_eq_getElem hk]

/-- On a non-empty alphabet the sampling loop succeeds, draws exactly `n`
characters, each from the alphabet, and records them as its trace. -/
theorem sampleChars_spec (alphabet : List Char) (rnd : Nat → Nat)
    (h : alphabet ≠ []) : ∀ n i : Nat, ∃ pw : List Char,
    sampleChars alphabet rnd i n = (some pw, pw.map REvent.charDrawn) ∧
    pw.length = n ∧ ∀ c ∈ pw, c ∈ alphabet := by
  intro n
  induction n with
  | zero => exact fun i => ⟨[], rfl, rfl, by simp⟩
  | succ m ih =>
    intro i
    obtain ⟨a, ha, hmem⟩ := choose_of_ne_nil alphabet (rnd i) h
    obtain ⟨pw, hpw, hlen, hall⟩ := ih (i + 1)
    refine ⟨a :: pw, ?_, by simp [hlen], ?_⟩
    · simp [sampleChars, ha, hpw]
    · intro c hc
      rcases List.mem_cons.mp hc with h1 | h1
      · exact h1 ▸ hmem
      · exact hall c h1

/-- A valid explicit length passes the length check. -/
theorem effectiveLength_of_le (L : Nat) (h : L ≤ 65536) :
    effectiveLength (some L) = some L := by
  simp [effectiveLength]
  omega

/-- With a valid explicit length and a non-empty alphabet, the password
branch succeeds with a password of the requested length drawn from the
alphabet. -/
theorem passwordBranch_ok (args : PasswordArgs) (rnd : Nat → Nat) (L : Nat)
    (hL : args.length = some L) (hle : L ≤ 65536)
    (hne : buildAlphabet args ≠ []) : ∃ pw : List Char,
    passwordBranch args rnd = (PwOutcome.ok pw, pw.map REvent.charDrawn) ∧
    pw.length = L ∧ ∀ c ∈ pw, c ∈ buildAlphabet args := by
  obtain ⟨pw, hpw, hlen, hall⟩ := sampleChars_spec (buildAlphabet args) rnd hne L 0
  refine ⟨pw, ?_, hlen, hall⟩
  have hEmp : (buildAlphabet args).isEmpty = false := by
    simp [hne]
  have hEff : effectiveLength args.length = some L := by
    rw [hL]
    exact effectiveLength_of_le L hle
  simp [passwordBranch, hEmp, hEff, hpw]

/-- Whenever the password branch succeeds, every character of the password
is a member of the alphabet it was built from. -/
theorem passwordBranch_ok_mem (args : PasswordArgs) (rnd : Nat → Nat)
    (pw : List Char) (evs : List REvent)
    (h : passwordBranch args rnd = (PwOutcome.ok pw, evs)) :
    ∀ c ∈ pw, c ∈ buildAlphabet args := by
  unfold passwordBranch at h
  cases hEmp : (buildAlphabet args).isEmpty with
  | true => simp [hEmp] at h
  | false =>
    have hne : buildAlphabet args ≠ [] := List.isEmpty_eq_false.mp hEmp
    cases hEff : effectiveLength args.length with
    | none => simp [hEmp, hEff] at h
    | some len =>
      obtain ⟨pw0, hpw0, hlen0, hall⟩ :=
        sampleChars_spec (buildAlphabet args) rnd hne len 0
      simp [hEmp, hEff, hpw0] at h
      intro c hc
      exact hall c (h.1 ▸ hc)

/-- Folding one `retain` pass per excluded character over a list equals a
single filter keeping the characters not contained in the exclusion list. -/
theorem foldl_retain_eq_filter (ex : List Char) : ∀ l : List Char,
    ex.foldl (fun acc c => acc.filter (fun d => d != c)) l
      = l.filter (fun d => !ex.contains d) := by
  induction ex with
  | nil => intro l; simp
  | cons c ex ih =>
    intro l
    rw [List.foldl_cons, ih, List.filter_filter]
    apply List.filter_congr
    intro d _
    by_cases hdc : d = c <;> simp [List.contains_cons, hdc, Bool.and_comm]

/-- The alphabet built by the password branch with an explicit exclusion
list equals the spec-side alphabet of the chosen sets. -/
theorem buildAlphabet_eq_spec (args : PasswordArgs) (ex : List Char)
    (h : args.excluded_chars = some ex) :
    buildAlphabet args
      = specAlphabet (args.character_sets.getD DEFAULT_CHAR_SETS) ex := by
  simp [buildAlphabet, specAlphabet, h, foldl_retain_eq_filter]

/-- Characters of the built alphabet are never in the exclusion list. -/
theorem mem_buildAlphabet_not_excluded (args : PasswordArgs) (ex : List Char)
    (h : args.excluded_chars = some ex) (c : Char)
    (hc : c ∈ buildAlphabet args) : c ∉ ex := by
  rw [buildAlphabet_eq_spec args ex h, specAlphabet, List.mem_filter] at hc
  intro hmem
  have h2 := hc.2
  simp [hmem] at h2

/-- Every drawn digit character is one of the ten decimal digits. -/
theorem digitChar_mem (k : Nat) : digitChar k ∈ DIGITS_CHARS := by
  unfold digitChar
  have h : k % 10 < 10 := Nat.mod_lt _ (by norm_num)
  generalize k % 10 = m at h ⊢
  interval_cases m <;> decide

/-- With a valid explicit digit count and non-empty word lists, the username
branch succeeds and its output and trace have the exact shape produced by
the source: base word pair, optional second separator, digit suffix. -/
theorem usernameBranch_ok (adjList objList : List (List Char))
    (args : UsernameArgs) (adjIdx objIdx : Nat) (digitRnd : Nat → Nat)
    (N : Nat) (hN : args.numbers = some N) (hle : N ≤ 65536)
    (ha : adjList ≠ []) (ho : objList ≠ []) :
    ∃ adj obj, adj ∈ adjList ∧ obj ∈ objList ∧
      usernameBranch adjList objList args adjIdx objIdx digitRnd
        = (UnOutcome.ok
            ((if N > 0 then (adj ++ sepOf args ++ obj) ++ sepOf args
              else adj ++ sepOf args ++ obj)
              ++ (digitsOf digitRnd N).map digitChar),
           REvent.wordDrawn adj :: REvent.wordDrawn obj ::
             (digitsOf digitRnd N).map REvent.digitDrawn) := by
  obtain ⟨adj, hadj, hadjm⟩ := choose_of_ne_nil adjList adjIdx ha
  obtain ⟨obj, hobj, hobjm⟩ := choose_of_ne_nil objList objIdx ho
  have hEff : effectiveNumbers args.numbers = some N := by
    rw [hN]
    simp [effectiveNumbers]
    omega
  exact ⟨adj, obj, hadjm, hobjm, by simp [usernameBranch, hadj, hobj, hEff]⟩

/-- With an explicit digit count above the bound and non-empty word lists,
the username branch rejects the request, but only after both words have
been drawn. -/
theorem usernameBranch_tooLarge (adjList objList : List (List Char))
    (args : UsernameArgs) (adjIdx objIdx : Nat) (digitRnd : Nat → Nat)
    (N : Nat) (hN : args.numbers = some N) (hgt : N > 65536)
    (ha : adjList ≠ []) (ho : objList ≠ []) :
    ∃ adj obj, adj ∈ adjList ∧ obj ∈ objList ∧
      usernameBranch adjList objList args adjIdx objIdx digitRnd
        = (UnOutcome.numbersTooLarge,
           [REvent.wordDrawn adj, REvent.wordDrawn obj]) := by
  obtain ⟨adj, hadj, hadjm⟩ := choose_of_ne_nil adjList adjIdx ha
  obtain ⟨obj, hobj, hobjm⟩ := choose_of_ne_nil objList objIdx ho
  have hEff : effectiveNumbers args.numbers = none := by
    rw [hN]
    simp [effectiveNumbers]
    omega
  exact ⟨adj, obj, hadjm, hobjm, by simp [usernameBranch, hadj, hobj, hEff]⟩

/-! ### Claim theorems -/

/-- C1: for every non-empty sampling alphabet and every requested length L
with L ≤ 65536, password generation returns a string of exactly L
characters, and every character of that string is a member of the
alphabet. -/
theorem c1_password_length_and_membership (args : PasswordArgs)
    (rnd : Nat → Nat) (L : Nat) (hL : args.length = some L)
    (hle : L ≤ 65536) (hne : buildAlphabet args ≠ []) :
    ∃ pw evs, passwordBranch args rnd = (PwOutcome.ok pw, evs) ∧
      pw.length = L ∧ ∀ c ∈ pw, c ∈ buildAlphabet args := by
  obtain ⟨pw, hpw, hlen, hall⟩ := passwordBranch_ok args rnd L hL hle hne
  exact ⟨pw, pw.map REvent.charDrawn, hpw, hlen, hall⟩

/-- Witness for C1 at length 4 over the lowercase set. -/
theorem c1_password_length_and_membership_witness :
    ∃ pw evs,
      passwordBranch ⟨some 4, some [CharSet.Lower], none, false, false⟩
        (fun _ => 0) = (PwOutcome.ok pw, evs) ∧
      pw.length = 4 ∧
      ∀ c ∈ pw,
        c ∈ buildAlphabet ⟨some 4, some [CharSet.Lower], none, false, false⟩ :=
  c1_password_length_and_membership
    ⟨some 4, some [CharSet.Lower], none, false, false⟩ (fun _ => 0) 4
    rfl (by norm_num) (by decide)

/-- C8: a requested password length of 0 with a non-empty alphabet yields
the empty string and no error. -/
theorem c8_zero_length_empty_string (args : PasswordArgs) (rnd : Nat → Nat)
    (h0 : args.length = some 0) (hne : buildAlphabet args ≠ []) :
    passwordBranch args rnd = (PwOutcome.ok [], []) := by
  obtain ⟨pw, hpw, hlen, -⟩ :=
    passwordBranch_ok args rnd 0 h0 (by norm_num) hne
  have hnil : pw = [] := List.length_eq_zero.mp hlen
  rw [hpw, hnil]
  rfl

/-- Witness for C8 with the default alphabet. -/
theorem c8_zero_length_empty_string_witness :
    passwordBranch ⟨some 0, none, none, false, false⟩ (fun _ => 0)
      = (PwOutcome.ok [], []) :=
  c8_zero_length_empty_string ⟨some 0, none, none, false, false⟩
    (fun _ => 0) rfl (by decide)

/-- C9: each of the five character-set constants is non-empty and contains
no duplicate characters within that set. -/
theorem c9_char_sets_nonempty_nodup (s : CharSet) :
    get_char_set s ≠ [] ∧ (get_char_set s).Nodup := by
  cases s <;> exact ⟨by decide, by decide⟩

/-- C10: the password branch can never reach the panicking `unwrap` in the
sampling loop: once the empty-alphabet guard has passed, every per-position
draw yields a character, so for any arguments the outcome is one of the two
validation errors or a generated password, never the panic outcome. -/
theorem c10_sampling_never_panics (args : PasswordArgs) (rnd : Nat → Nat) :
    (passwordBranch args rnd).1 = PwOutcome.emptyAlphabet
    ∨ (passwordBranch args rnd).1 = PwOutcome.lengthTooLarge
    ∨ ∃ pw, (passwordBranch args rnd).1 = PwOutcome.ok pw := by
  unfold passwordBranch
  cases hEmp : (buildAlphabet args).isEmpty with
  | true => simp [hEmp]
  | false =>
    have hne : buildAlphabet args ≠ [] := List.isEmpty_eq_false.mp hEmp
    cases hEff : effectiveLength args.length with
    | none => simp [hEmp, hEff]
    | some len =>
      obtain ⟨pw, hpw, -, -⟩ :=
        sampleChars_spec (buildAlphabet args) rnd hne len 0
      simp [hEmp, hEff, hpw]

/-- C4: for every choice of character sets (defaulting to Lower, Upper,
Digits, Symbol) and every exclusion set, the sampling alphabet equals the
in-order concatenation of the requested sets' characters with every
occurrence of every excluded character removed; consequently an excluded
character never appears in the generated password. -/
theorem c4_alphabet_construction_and_exclusion (args : PasswordArgs)
    (rnd : Nat → Nat) (ex : List Char)
    (hex : args.excluded_chars = some ex) :
    buildAlphabet args
      = specAlphabet (args.character_sets.getD DEFAULT_CHAR_SETS) ex
    ∧ ∀ pw evs, passwordBranch args rnd = (PwOutcome.ok pw, evs) →
        ∀ c ∈ pw, c ∉ ex := by
  refine ⟨buildAlphabet_eq_spec args ex hex, ?_⟩
  intro pw evs hEq c hc
  exact mem_buildAlphabet_not_excluded args ex hex c
    (passwordBranch_ok_mem args rnd pw evs hEq c hc)

/-- Witness for C4: default sets with the vowels excluded. -/
theorem c4_alphabet_construction_and_exclusion_witness :
    buildAlphabet ⟨some 3, none, some ['a', 'e', 'i', 'o', 'u'], false, false⟩
      = specAlphabet DEFAULT_CHAR_SETS ['a', 'e', 'i', 'o', 'u']
    ∧ ∀ pw evs,
        passwordBranch ⟨some 3, none, some ['a', 'e', 'i', 'o', 'u'], false,
            false⟩ (fun _ => 0) = (PwOutcome.ok pw, evs) →
        ∀ c ∈ pw, c ∉ (['a', 'e', 'i', 'o', 'u'] : List Char) :=
  c4_alphabet_construction_and_exclusion
    ⟨some 3, none, some ['a', 'e', 'i', 'o', 'u'], false, false⟩
    (fun _ => 0) ['a', 'e', 'i', 'o', 'u'] rfl

/-- C6: excluding every character of the selected sets makes the run fail
with the empty-alphabet message and produce no generated output, no events
and no clipboard write. -/
theorem c6_empty_alphabet_error (args : PasswordArgs) (rnd : Nat → Nat)
    (env : ClipEnv) (ex : List Char) (hex : args.excluded_chars = some ex)
    (hall : ∀ c ∈ (args.character_sets.getD DEFAULT_CHAR_SETS).foldl
        (fun acc s => acc ++ get_char_set s) [], c ∈ ex) :
    mainPassword args rnd env = ⟨[emptyAlphabetMsg], false, []⟩ := by
  have hnil : buildAlphabet args = [] := by
    rw [buildAlphabet_eq_spec args ex hex, specAlphabet]
    refine List.filter_eq_nil_iff.mpr ?_
    intro c hc
    simp [hall c hc]
  have hBr : passwordBranch args rnd = (PwOutcome.emptyAlphabet, []) := by
    simp [passwordBranch, hnil]
  simp [mainPassword, hBr]

/-- Witness for C6: the digits set with all ten digits excluded. -/
theorem c6_empty_alphabet_error_witness :
    mainPassword
      ⟨some 8, some [CharSet.Digits], some "0123456789".toList, false, false⟩
      (fun _ => 0) ClipEnv.serviceOk
      = ⟨[emptyAlphabetMsg], false, []⟩ :=
  c6_empty_alphabet_error
    ⟨some 8, some [CharSet.Digits], some "0123456789".toList, false, false⟩
    (fun _ => 0) ClipEnv.serviceOk "0123456789".toList rfl (by decide)

/-- C2 counterexample: with digit count 70000 the username branch does draw
a word from each word list before the bound check rejects the request, so
the claim that no word is drawn before the bound check is false. -/
theorem c2_words_drawn_before_bound_check :
    (usernameBranch [['h']] [['d']] ⟨some 70000, none, false⟩ 0 0
        (fun _ => 0)).1 = UnOutcome.numbersTooLarge
    ∧ (usernameBranch [['h']] [['d']] ⟨some 70000, none, false⟩ 0 0
        (fun _ => 0)).2
      = [REvent.wordDrawn ['h'], REvent.wordDrawn ['d']]
    ∧ ([REvent.wordDrawn ['h'], REvent.wordDrawn ['d']] : List REvent)
        ≠ [] := by
  refine ⟨rfl, rfl, by decide⟩

/-- C2 (amended): an over-large length or digit count is rejected with only
an error message printed, no generated output and no clipboard write; in
password mode no random sampling at all occurs before the rejection, while
in username mode the two words (and nothing else) are drawn before the
digit-count bound check. -/
theorem c2_bound_rejected_no_output (args : PasswordArgs) (rnd : Nat → Nat)
    (env : ClipEnv) (L : Nat) (hL : args.length = some L) (hgt : L > 65536)
    (adjList objList : List (List Char)) (uargs : UsernameArgs)
    (adjIdx objIdx : Nat) (digitRnd : Nat → Nat) (uenv : ClipEnv) (N : Nat)
    (hN : uargs.numbers = some N) (hNgt : N > 65536)
    (ha : adjList ≠ []) (ho : objList ≠ []) :
    mainPassword args rnd env
      = ⟨[if (buildAlphabet args).isEmpty then emptyAlphabetMsg
          else tooLongMsg], false, []⟩
    ∧ ∃ adj obj, adj ∈ adjList ∧ obj ∈ objList ∧
        mainUsername adjList objList uargs adjIdx objIdx digitRnd uenv
          = ⟨[tooManyMsg], false,
             [REvent.wordDrawn adj, REvent.wordDrawn obj]⟩ := by
  constructor
  · have hEff : effectiveLength args.length = none := by
      rw [hL]
      simp [effectiveLength]
      omega
    cases hEmp : (buildAlphabet args).isEmpty with
    | true =>
      have hBr : passwordBranch args rnd = (PwOutcome.emptyAlphabet, []) := by
        simp [passwordBranch, hEmp]
      simp [mainPassword, hBr, hEmp]
    | false =>
      have hBr : passwordBranch args rnd = (PwOutcome.lengthTooLarge, []) := by
        simp [passwordBranch, hEmp, hEff]
      simp [mainPassword, hBr, hEmp]
  · obtain ⟨adj, obj, hA, hO, hBr⟩ :=
      usernameBranch_tooLarge adjList objList uargs adjIdx objIdx digitRnd
        N hN hNgt ha ho
    exact ⟨adj, obj, hA, hO, by simp [mainUsername, hBr]⟩

/-- Witness for C2 (amended) at length 70000 and digit count 70000. -/
theorem c2_bound_rejected_no_output_witness :
    mainPassword ⟨some 70000, none, none, false, false⟩ (fun _ => 0)
      ClipEnv.serviceOk
      = ⟨[if (buildAlphabet ⟨some 70000, none, none, false, false⟩).isEmpty
          then emptyAlphabetMsg else tooLongMsg], false, []⟩
    ∧ ∃ adj obj, adj ∈ ([['h']] : List (List Char)) ∧
        obj ∈ ([['d']] : List (List Char)) ∧
        mainUsername [['h']] [['d']] ⟨some 70000, none, false⟩ 0 0
          (fun _ => 0) ClipEnv.serviceOk
          = ⟨[tooManyMsg], false,
             [REvent.wordDrawn adj, REvent.wordDrawn obj]⟩ :=
  c2_bound_rejected_no_output ⟨some 70000, none, none, false, false⟩
    (fun _ => 0) ClipEnv.serviceOk 70000 rfl (by norm_num)
    [['h']] [['d']] ⟨some 70000, none, false⟩ 0 0 (fun _ => 0)
    ClipEnv.serviceOk 70000 rfl (by norm_num) (by decide) (by decide)

/-- C3 counterexample: with separator '-' and digit count 0 the output is
"happy-dog", whose last character is 'g', not the separator, so the output
does not end in a trailing separator. -/
theorem c3_no_trailing_separator_at_zero :
    (usernameBranch [['h', 'a', 'p', 'p', 'y']] [['d', 'o', 'g']]
        ⟨some 0, some '-', false⟩ 0 0 (fun _ => 0)).1
      = UnOutcome.ok ['h', 'a', 'p', 'p', 'y', '-', 'd', 'o', 'g']
    ∧ (['h', 'a', 'p', 'p', 'y', '-', 'd', 'o', 'g'] : List Char).getLast?
        = some 'g'
    ∧ ('g' : Char) ≠ '-' := by
  refine ⟨rfl, rfl, by decide⟩

/-- C3 (amended): with a separator specified and digit count 0, the output
is adjective ++ separator ++ object: the separator is inserted exactly once,
between the two words, and no digit suffix and no trailing separator are
appended. -/
theorem c3_zero_digits_output_shape (adjList objList : List (List Char))
    (args : UsernameArgs) (adjIdx objIdx : Nat) (digitRnd : Nat → Nat)
    (c : Char) (hc : args.word_char = some c) (h0 : args.numbers = some 0)
    (ha : adjList ≠ []) (ho : objList ≠ []) :
    ∃ adj obj, adj ∈ adjList ∧ obj ∈ objList ∧
      (usernameBranch adjList objList args adjIdx objIdx digitRnd).1
        = UnOutcome.ok (adj ++ [c] ++ obj) := by
  obtain ⟨adj, obj, hA, hO, hBr⟩ :=
    usernameBranch_ok adjList objList args adjIdx objIdx digitRnd 0 h0
      (by norm_num) ha ho
  refine ⟨adj, obj, hA, hO, ?_⟩
  rw [hBr]
  simp [digitsOf, sepOf, hc]

/-- Witness for C3 (amended) on singleton word lists. -/
theorem c3_zero_digits_output_shape_witness :
    ∃ adj obj, adj ∈ ([['h', 'a', 'p', 'p', 'y']] : List (List Char)) ∧
      obj ∈ ([['d', 'o', 'g']] : List (List Char)) ∧
      (usernameBranch [['h', 'a', 'p', 'p', 'y']] [['d', 'o', 'g']]
          ⟨some 0, some '-', false⟩ 0 0 (fun _ => 0)).1
        = UnOutcome.ok (adj ++ ['-'] ++ obj) :=
  c3_zero_digits_output_shape [['h', 'a', 'p', 'p', 'y']] [['d', 'o', 'g']]
    ⟨some 0, some '-', false⟩ 0 0 (fun _ => 0) '-' rfl rfl
    (by decide) (by decide)

/-- C5: every successful username generation with digit count N ≤ 65536
matches adjective, optional separator, object, optional separator, digit
suffix: the words are members of their lists (two independent draws) and the
digit suffix has length exactly N with every character a decimal digit. -/
theorem c5_username_pattern (adjList objList : List (List Char))
    (args : UsernameArgs) (adjIdx objIdx : Nat) (digitRnd : Nat → Nat)
    (N : Nat) (hN : args.numbers = some N) (hle : N ≤ 65536)
    (ha : adjList ≠ []) (ho : objList ≠ []) :
    ∃ adj obj ds, adj ∈ adjList ∧ obj ∈ objList ∧
      (usernameBranch adjList objList args adjIdx objIdx digitRnd).1
        = UnOutcome.ok (adj ++ sepOf args ++ obj
            ++ (if N > 0 then sepOf args else []) ++ ds)
      ∧ ds.length = N ∧ ∀ d ∈ ds, d ∈ DIGITS_CHARS := by
  obtain ⟨adj, obj, hA, hO, hBr⟩ :=
    usernameBranch_ok adjList objList args adjIdx objIdx digitRnd N hN hle
      ha ho
  refine ⟨adj, obj, (digitsOf digitRnd N).map digitChar, hA, hO, ?_, ?_, ?_⟩
  · rw [hBr]
    by_cases h : N > 0 <;> simp [h, List.append_assoc]
  · simp [digitsOf]
  · intro d hd
    obtain ⟨k, -, rfl⟩ := List.mem_map.mp hd
    exact digitChar_mem k

/-- Witness for C5 with separator '-' and three digits. -/
theorem c5_username_pattern_witness :
    ∃ adj obj ds, adj ∈ ([['h']] : List (List Char)) ∧
      obj ∈ ([['d']] : List (List Char)) ∧
      (usernameBranch [['h']] [['d']] ⟨some 3, some '-', false⟩ 0 0
          (fun i => i + 7)).1
        = UnOutcome.ok (adj ++ sepOf ⟨some 3, some '-', false⟩ ++ obj
            ++ (if 3 > 0 then sepOf ⟨some 3, some '-', false⟩ else []) ++ ds)
      ∧ ds.length = 3 ∧ ∀ d ∈ ds, d ∈ DIGITS_CHARS :=
  c5_username_pattern [['h']] [['d']] ⟨some 3, some '-', false⟩ 0 0
    (fun i => i + 7) 3 rfl (by norm_num) (by decide) (by decide)

/-- C7 counterexample: on clipboard success the trailing status line of a
password run is "Password copied to clipboard.", not the claimed exact text
"Copied to clipboard.". -/
theorem c7_success_status_line_has_mode_word :
    (mainPassword ⟨some 0, some [CharSet.Lower], none, false, false⟩
        (fun _ => 0) ClipEnv.serviceOk).printed.getLast?
      = some "Password copied to clipboard.".toList
    ∧ "Password copied to clipboard.".toList
        ≠ "Copied to clipboard.".toList := by
  refine ⟨rfl, by decide⟩

/-- C7 (amended): the clipboard outcome never alters the generated value
that is printed; it only selects the trailing status line, which is
"Password copied to clipboard." (password mode) or "Username copied to
clipboard." (username mode) on success, "Unable to copy to clipboard." on
write failure, and "Unable to copy to clipboard because it is not supported
by OS." when no clipboard service is available. -/
theorem c7_clipboard_only_selects_status_line :
    (∀ (args : PasswordArgs) (rnd : Nat → Nat) (env : ClipEnv)
        (pw : List Char) (evs : List REvent),
        passwordBranch args rnd = (PwOutcome.ok pw, evs) →
        args.copy_disabled = false →
        (mainPassword args rnd env).printed
          = (if args.hide_disabled then [pw] else []) ++ [clipStatus true env])
    ∧ (∀ (adjList objList : List (List Char)) (uargs : UsernameArgs)
        (adjIdx objIdx : Nat) (digitRnd : Nat → Nat) (env : ClipEnv)
        (u : List Char) (evs : List REvent),
        usernameBranch adjList objList uargs adjIdx objIdx digitRnd
          = (UnOutcome.ok u, evs) →
        uargs.copy_disabled = false →
        (mainUsername adjList objList uargs adjIdx objIdx digitRnd env).printed
          = [u, clipStatus false env])
    ∧ clipStatus true ClipEnv.serviceOk
        = "Password copied to clipboard.".toList
    ∧ clipStatus false ClipEnv.serviceOk
        = "Username copied to clipboard.".toList
    ∧ clipStatus true ClipEnv.serviceFailWrite
        = "Unable to copy to clipboard.".toList
    ∧ clipStatus false ClipEnv.serviceFailWrite
        = "Unable to copy to clipboard.".toList
    ∧ clipStatus true ClipEnv.noService
        = "Unable to copy to clipboard because it is not supported by OS.".toList
    ∧ clipStatus false ClipEnv.noService
        = "Unable to copy to clipboard because it is not supported by OS.".toList := by
  refine ⟨?_, ?_, rfl, rfl, rfl, rfl, rfl, rfl⟩
  · intro args rnd env pw evs hBr hCopy
    simp [mainPassword, hBr, runClipboard, hCopy]
  · intro adjList objList uargs adjIdx objIdx digitRnd env u evs hBr hCopy
    simp [mainUsername, hBr, runClipboard, hCopy]

/-- Witness for C7 (amended): a password run with a failing clipboard write
and a username run with a successful one. -/
theorem c7_clipboard_only_selects_status_line_witness :
    (mainPassword ⟨some 2, some [CharSet.Lower], none, false, true⟩
        (fun _ => 0) ClipEnv.serviceFailWrite).printed
      = (if true then [['a', 'a']] else [])
          ++ [clipStatus true ClipEnv.serviceFailWrite]
    ∧ (mainUsername [['h']] [['d']] ⟨some 0, none, false⟩ 0 0 (fun _ => 0)
        ClipEnv.serviceOk).printed
      = [['h', 'd'], clipStatus false ClipEnv.serviceOk] :=
  ⟨c7_clipboard_only_selects_status_line.1
      ⟨some 2, some [CharSet.Lower], none, false, true⟩ (fun _ => 0)
      ClipEnv.serviceFailWrite ['a', 'a']
      [REvent.charDrawn 'a', REvent.charDrawn 'a'] (by decide) rfl,
   c7_clipboard_only_selects_status_line.2.1 [['h']] [['d']]
      ⟨some 0, none, false⟩ 0 0 (fun _ => 0) ClipEnv.serviceOk ['h', 'd']
      [REvent.wordDrawn ['h'], REvent.wordDrawn ['d']] (by decide) rfl⟩

end Pwgen
